import Mathlib

/-!
Verification of the Neocore BLE client protocol codec and session layer
(`neocore_client.py`).  Frames are modelled as lists of naturals (one per
byte); the transport (bleak), logging and async choreography are outside the
codec and are not modelled.  Fallible operations (a Python function that
raises, or that returns early without producing a value) are modelled with
`Option`.
-/

namespace Neocore

/-- Feature ID `CORE_FEATURE = 0x00`. -/
def CORE_FEATURE : Nat := 0x00

/-- Feature ID `SENSOR_CFG_FEATURE = 0x01`. -/
def SENSOR_CFG_FEATURE : Nat := 0x01

/-- Feature ID `SENSOR_STREAM_FEATURE = 0x02`. -/
def SENSOR_STREAM_FEATURE : Nat := 0x02

/-- Feature ID `BATTERY_FEATURE = 0x03`. -/
def BATTERY_FEATURE : Nat := 0x03

/-- PDU type `PDU_COMMAND = 0`. -/
def PDU_COMMAND : Nat := 0

/-- PDU type `PDU_NOTIFICATION = 1`. -/
def PDU_NOTIFICATION : Nat := 1

/-- PDU type `PDU_RESPONSE = 2`. -/
def PDU_RESPONSE : Nat := 2

/-- PDU type `PDU_ERROR = 3`. -/
def PDU_ERROR : Nat := 3

/-- Command ID `CMD_GET_SERIAL = 0x01`. -/
def CMD_GET_SERIAL : Nat := 0x01

/-- Command ID `CMD_GET_BATTERY = 0x00`. -/
def CMD_GET_BATTERY : Nat := 0x00

/-- First-byte discriminant of EEG frames, `EEG_PACKET_TYPE = 0x04`. -/
def EEG_PACKET_TYPE : Nat := 0x04

/-- The mutable session state of `NeocoreClient`: `self.serial_number` and
`self.battery_level`, both `None` at construction. -/
structure Session where
  serial_number : Option String
  battery_level : Option Nat
deriving DecidableEq

/-- The encoding step of `send_command`:
`cmd_id = ((feature_id << 9) | (pdu_type << 7)) | pdu_id` followed by
`cmd_id.to_bytes(2, "big") + data`.  `to_bytes(2, "big")` produces the two
base-256 digits of `cmd_id` and raises `OverflowError` when
`cmd_id ≥ 2^16`; the raise is modelled as `none`. -/
def send_command (feature_id pdu_type pdu_id : Nat) (data : List Nat) :
    Option (List Nat) :=
  let cmd_id := ((feature_id <<< 9) ||| (pdu_type <<< 7)) ||| pdu_id
  if cmd_id < 2 ^ 16 then
    some ((cmd_id / 256) :: (cmd_id % 256) :: data)
  else
    none

/-- `command_id = (data[0] << 8) | data[1]` from `parse_response`. -/
def command_id_of (data : List Nat) : Nat :=
  ((data.getD 0 0) <<< 8) ||| data.getD 1 0

/-- `feature_id = command_id >> 9` from `parse_response`. -/
def feature_id_of (data : List Nat) : Nat :=
  command_id_of data >>> 9

/-- `pdu_type = (command_id >> 7) & 0x03` from `parse_response`. -/
def pdu_type_of (data : List Nat) : Nat :=
  (command_id_of data >>> 7) &&& 0x03

/-- `pdu_id = command_id & 0x7F` from `parse_response`. -/
def pdu_id_of (data : List Nat) : Nat :=
  command_id_of data &&& 0x7F

/-- Strict UTF-8 decoding of a byte sequence into its characters, as
performed by Python's `bytes.decode()`: ASCII bytes stand alone; `C2..DF`
leads a 2-byte sequence; `E0..EF` a 3-byte sequence (with the
first continuation restricted under `E0`/`ED` to exclude overlong forms and
surrogates); `F0..F4` a 4-byte sequence (restricted under `F0`/`F4` to the
range `U+10000..U+10FFFF`); anything else is invalid and the whole decode
fails (`none`). -/
def utf8DecodeChars : List Nat → Option (List Char)
  | [] => some []
  | b0 :: rest =>
    if b0 ≤ 0x7F then
      (utf8DecodeChars rest).map (fun cs => Char.ofNat b0 :: cs)
    else if 0xC2 ≤ b0 ∧ b0 ≤ 0xDF then
      match rest with
      | b1 :: rest1 =>
        if 0x80 ≤ b1 ∧ b1 ≤ 0xBF then
          (utf8DecodeChars rest1).map
            (fun cs => Char.ofNat ((b0 - 0xC0) * 0x40 + (b1 - 0x80)) :: cs)
        else none
      | [] => none
    else if 0xE0 ≤ b0 ∧ b0 ≤ 0xEF then
      match rest with
      | b1 :: b2 :: rest2 =>
        if ((b0 = 0xE0 ∧ 0xA0 ≤ b1 ∧ b1 ≤ 0xBF) ∨
            (b0 = 0xED ∧ 0x80 ≤ b1 ∧ b1 ≤ 0x9F) ∨
            (b0 ≠ 0xE0 ∧ b0 ≠ 0xED ∧ 0x80 ≤ b1 ∧ b1 ≤ 0xBF)) ∧
           0x80 ≤ b2 ∧ b2 ≤ 0xBF then
          (utf8DecodeChars rest2).map
            (fun cs =>
              Char.ofNat ((b0 - 0xE0) * 0x1000 + (b1 - 0x80) * 0x40 + (b2 - 0x80)) :: cs)
        else none
      | _ => none
    else if 0xF0 ≤ b0 ∧ b0 ≤ 0xF4 then
      match rest with
      | b1 :: b2 :: b3 :: rest3 =>
        if ((b0 = 0xF0 ∧ 0x90 ≤ b1 ∧ b1 ≤ 0xBF) ∨
            (b0 = 0xF4 ∧ 0x80 ≤ b1 ∧ b1 ≤ 0x8F) ∨
            (b0 ≠ 0xF0 ∧ b0 ≠ 0xF4 ∧ 0x80 ≤ b1 ∧ b1 ≤ 0xBF)) ∧
           0x80 ≤ b2 ∧ b2 ≤ 0xBF ∧ 0x80 ≤ b3 ∧ b3 ≤ 0xBF then
          (utf8DecodeChars rest3).map
            (fun cs =>
              Char.ofNat ((b0 - 0xF0) * 0x40000 + (b1 - 0x80) * 0x1000 +
                (b2 - 0x80) * 0x40 + (b3 - 0x80)) :: cs)
        else none
      | _ => none
    else none

/-- One lowercase hexadecimal digit, as produced by `bytes.hex()`. -/
def hexDigitChar (n : Nat) : Char :=
  if n < 10 then Char.ofNat (48 + n) else Char.ofNat (87 + n)

/-- `payload.hex()`: two lowercase hex digits per byte. -/
def toHex (l : List Nat) : String :=
  String.mk (l.map (fun b => [hexDigitChar (b / 16), hexDigitChar (b % 16)])).flatten

/-- The serial-number text of `parse_response`:
`payload.decode()` and, on `UnicodeDecodeError`, the `payload.hex()`
fallback. -/
def decodeSerial (payload : List Nat) : String :=
  match utf8DecodeChars payload with
  | some cs => String.mk cs
  | none => toHex payload

/-- The first `if` in the `PDU_RESPONSE` branch of `parse_response`:
`feature_id == CORE_FEATURE and pdu_id == CMD_GET_SERIAL` sets
`self.serial_number`. -/
def serial_update (s : Session) (data : List Nat) : Session :=
  if feature_id_of data = CORE_FEATURE ∧ pdu_id_of data = CMD_GET_SERIAL then
    { s with serial_number := some (decodeSerial (data.drop 2)) }
  else s

/-- The second `if` in the `PDU_RESPONSE` branch of `parse_response`:
`feature_id == BATTERY_FEATURE and pdu_id == CMD_GET_BATTERY and payload`
sets `self.battery_level = payload[0]`. -/
def battery_update (s : Session) (data : List Nat) : Session :=
  if feature_id_of data = BATTERY_FEATURE ∧ pdu_id_of data = CMD_GET_BATTERY ∧
      data.drop 2 ≠ [] then
    { s with battery_level := some ((data.drop 2).headD 0) }
  else s

/-- `parse_response`: an early return on `len(data) < 2`, header-field
extraction, and the two sequential feature-specific updates guarded by
`pdu_type == PDU_RESPONSE`.  The function returns the (possibly updated)
session; the Python method mutates `self` and returns `None`. -/
def parse_response (s : Session) (data : List Nat) : Session :=
  if data.length < 2 then s
  else if pdu_type_of data = PDU_RESPONSE then
    battery_update (serial_update s data) data
  else s

/-- The decoded EEG frame, dataclass `EEGPacket`. -/
structure EEGPacket where
  index : Nat
  ch1 : List Int
  ch2 : List Int
deriving DecidableEq

/-- `int.from_bytes([b0,b1,b2,b3], "little")`: unsigned little-endian
32-bit assembly. -/
def leU32 (b0 b1 b2 b3 : Nat) : Nat :=
  b0 + 256 * b1 + 65536 * b2 + 16777216 * b3

/-- Reinterpretation of a 32-bit unsigned value as two's-complement signed
(`signed=True` in `int.from_bytes`). -/
def toSigned32 (u : Nat) : Int :=
  if u < 2 ^ 31 then (u : Int) else (u : Int) - 2 ^ 32

/-- The sample loop of `parse_eeg_packet`:
`for i in range(0, len(payload), 8)` appends, for each complete 8-byte
stride, `payload[i:i+4]` to `ch1` and `payload[i+4:i+8]` to `ch2`, both as
signed little-endian 32-bit integers; a trailing partial stride (the final
`i + 8 <= len(payload)` guard failing) contributes nothing. -/
def parseSamples : List Nat → List Int × List Int
  | b0 :: b1 :: b2 :: b3 :: b4 :: b5 :: b6 :: b7 :: rest =>
    let p := parseSamples rest
    (toSigned32 (leU32 b0 b1 b2 b3) :: p.1, toSigned32 (leU32 b4 b5 b6 b7) :: p.2)
  | _ => ([], [])

/-- `parse_eeg_packet`: `None` on `len(data) < 4`; otherwise
`index = int.from_bytes(data[2:4], "little")` and the stride loop over
`payload = data[4:]`.  The source also binds `length = data[1]` but never
uses it. -/
def parse_eeg_packet (data : List Nat) : Option EEGPacket :=
  if data.length < 4 then none
  else
    match data with
    | _ :: _length :: i0 :: i1 :: payload =>
      some { index := i0 + 256 * i1
             ch1 := (parseSamples payload).1
             ch2 := (parseSamples payload).2 }
    | _ => none

/-- `handle_notification`: empty frames are dropped, a first byte of
`EEG_PACKET_TYPE` routes to `parse_eeg_packet` (whose result is handed to
the sink, here the second component), anything else routes to
`parse_response`. -/
def handle_notification (s : Session) (data : List Nat) :
    Session × Option EEGPacket :=
  match data with
  | [] => (s, none)
  | packet_type :: _ =>
    if packet_type = EEG_PACKET_TYPE then (s, parse_eeg_packet data)
    else (parse_response s data, none)

/-- The freshly constructed session, both fields `None`. -/
def initialSession : Session := ⟨none, none⟩

/-! ## Bitwise arithmetic lemmas for the 16-bit header -/

/-- Disjoint bitwise-or is addition: when the low `n` bits of the left
operand are clear and the right operand fits in `n` bits. -/
theorem two_pow_mul_lor_eq_add (n : Nat) :
    ∀ a b : Nat, b < 2 ^ n → (2 ^ n * a) ||| b = 2 ^ n * a + b := by
  induction n with
  | zero =>
    intro a b hb
    interval_cases b
    simp
  | succ n ih =>
    intro a b hb
    have h2 : Nat.div2 b < 2 ^ n := by
      rw [Nat.div2_val]
      apply Nat.div_lt_of_lt_mul
      rw [pow_succ] at hb
      omega
    have hbit : Nat.bit false (2 ^ n * a) = 2 ^ (n + 1) * a := by
      simp [Nat.bit_val]
      ring
    calc (2 ^ (n + 1) * a) ||| b
        = Nat.bit false (2 ^ n * a) ||| Nat.bit (Nat.bodd b) (Nat.div2 b) := by
          rw [hbit, Nat.bit_decomp]
      _ = Nat.bit (false || Nat.bodd b) ((2 ^ n * a) ||| Nat.div2 b) :=
          Nat.lor_bit false (2 ^ n * a) (Nat.bodd b) (Nat.div2 b)
      _ = Nat.bit (Nat.bodd b) (2 ^ n * a + Nat.div2 b) := by
          rw [ih _ _ h2, Bool.false_or]
      _ = 2 ^ (n + 1) * a + b := by
          rw [Nat.bit_val]
          have hd := Nat.bodd_add_div2 b
          rw [pow_succ]
          ring_nf
          omega

/-- Packing the three header fields with shifts and ors equals plain
positional arithmetic as long as the two low fields are in range. -/
theorem pack_fields (f t p : Nat) (ht : t < 4) (hp : p < 128) :
    ((f <<< 9) ||| (t <<< 7)) ||| p = f * 512 + t * 128 + p := by
  have h1 : f <<< 9 = 2 ^ 9 * f := by rw [Nat.shiftLeft_eq]; ring
  have h2 : t <<< 7 = 2 ^ 7 * t := by rw [Nat.shiftLeft_eq]; ring
  have e1 : (f <<< 9) ||| (t <<< 7) = 2 ^ 9 * f + 2 ^ 7 * t := by
    rw [h1, h2]
    exact two_pow_mul_lor_eq_add 9 f (2 ^ 7 * t) (by omega)
  have e2 : 2 ^ 9 * f + 2 ^ 7 * t = 2 ^ 7 * (4 * f + t) := by ring
  rw [e1, e2, two_pow_mul_lor_eq_add 7 (4 * f + t) p (by omega)]
  ring

/-- Reassembling a 16-bit value from its two big-endian bytes with
`(hi << 8) | lo` recovers the value. -/
theorem repack_bytes (cmd : Nat) : ((cmd / 256) <<< 8) ||| (cmd % 256) = cmd := by
  have h1 : (cmd / 256) <<< 8 = 2 ^ 8 * (cmd / 256) := by rw [Nat.shiftLeft_eq]; ring
  rw [h1, two_pow_mul_lor_eq_add 8 (cmd / 256) (cmd % 256) (by omega)]
  omega

/-- Masking with `0x7F` is reduction mod 128. -/
theorem and_0x7F (x : Nat) : x &&& 0x7F = x % 128 := by
  have h : (0x7F : Nat) = 2 ^ 7 - 1 := rfl
  rw [h, Nat.and_pow_two_sub_one_eq_mod]

/-- Masking with `0x03` is reduction mod 4. -/
theorem and_0x03 (x : Nat) : x &&& 0x03 = x % 4 := by
  have h : (0x03 : Nat) = 2 ^ 2 - 1 := rfl
  rw [h, Nat.and_pow_two_sub_one_eq_mod]

/-- `command_id_of` on an explicit two-byte prefix. -/
theorem command_id_of_cons (b0 b1 : Nat) (rest : List Nat) :
    command_id_of (b0 :: b1 :: rest) = (b0 <<< 8) ||| b1 := rfl

/-! ## Claims -/

/-- C1: the claim that every out-of-range field makes `send_command` fail
with an `OutOfRange` error and produce no output bytes is false in the
code: `send_command` performs no range validation.  With `pdu_id = 128`
(feature 0, PDU type 0) encoding succeeds and returns the bytes
`[0x00, 0x80]`, whose stray bit has corrupted the adjacent `pdu_type`
field: the header reads back as `pdu_type = PDU_NOTIFICATION`, `pdu_id = 0`.
With `feature_id = 128` the packed value overflows 16 bits and the
`to_bytes` call raises `OverflowError` (modelled as `none`), not a typed
range check. -/
theorem send_command_out_of_range_wraps :
    send_command 0 0 128 [] = some [0, 128] ∧
    pdu_type_of [0, 128] = PDU_NOTIFICATION ∧
    pdu_id_of [0, 128] = 0 ∧
    send_command 128 0 0 [] = none := by decide

/-- C2: for every in-range triple and every payload, the bytes produced by
`send_command` decode through `parse_response`'s inverse header formulas
(`feature_id = header >> 9`, `pdu_type = (header >> 7) & 3`,
`pdu_id = header & 0x7F`, `payload = frame[2:]`) back to exactly the
original fields and payload. -/
theorem send_command_parse_response_roundtrip (f t p : Nat) (payload : List Nat)
    (hf : f < 128) (ht : t < 4) (hp : p < 128) :
    ∃ b0 b1 : Nat, send_command f t p payload = some (b0 :: b1 :: payload) ∧
      feature_id_of (b0 :: b1 :: payload) = f ∧
      pdu_type_of (b0 :: b1 :: payload) = t ∧
      pdu_id_of (b0 :: b1 :: payload) = p ∧
      (b0 :: b1 :: payload).drop 2 = payload := by
  have hpack : ((f <<< 9) ||| (t <<< 7)) ||| p = f * 512 + t * 128 + p :=
    pack_fields f t p ht hp
  have hlt : f * 512 + t * 128 + p < 2 ^ 16 := by omega
  have hcid : command_id_of ((f * 512 + t * 128 + p) / 256 ::
      (f * 512 + t * 128 + p) % 256 :: payload) = f * 512 + t * 128 + p := by
    rw [command_id_of_cons, repack_bytes]
  refine ⟨(f * 512 + t * 128 + p) / 256, (f * 512 + t * 128 + p) % 256, ?_, ?_, ?_, ?_, rfl⟩
  · show (if ((f <<< 9) ||| (t <<< 7)) ||| p < 2 ^ 16 then
        some (((((f <<< 9) ||| (t <<< 7)) ||| p) / 256) ::
          ((((f <<< 9) ||| (t <<< 7)) ||| p) % 256) :: payload)
      else none) = _
    rw [hpack, if_pos hlt]
  · show command_id_of _ >>> 9 = f
    rw [hcid, Nat.shiftRight_eq_div_pow]
    omega
  · show (command_id_of _ >>> 7) &&& 0x03 = t
    rw [hcid, Nat.shiftRight_eq_div_pow, and_0x03]
    omega
  · show command_id_of _ &&& 0x7F = p
    rw [hcid, and_0x7F]
    omega

/-- Witness for C2 at `feature_id = 3`, `pdu_type = 2`, `pdu_id = 0`,
payload `[0x5A]`. -/
theorem send_command_parse_response_roundtrip_witness :
    ∃ b0 b1 : Nat, send_command 3 2 0 [90] = some (b0 :: b1 :: [90]) ∧
      feature_id_of (b0 :: b1 :: [90]) = 3 ∧
      pdu_type_of (b0 :: b1 :: [90]) = 2 ∧
      pdu_id_of (b0 :: b1 :: [90]) = 0 ∧
      (b0 :: b1 :: [90]).drop 2 = [90] :=
  send_command_parse_response_roundtrip 3 2 0 [90] (by decide) (by decide) (by decide)

/-! ## EEG frame decoding -/

/-- Reading four positions past an explicit four-byte prefix. -/
theorem getD_add_four (a0 a1 a2 a3 : Nat) (l : List Nat) (m d : Nat) :
    (a0 :: a1 :: a2 :: a3 :: l).getD (m + 4) d = l.getD m d := by
  have h : m + 4 = m + 1 + 1 + 1 + 1 := by omega
  rw [h]
  simp [List.getD_cons_succ]

/-- Reading eight positions past an explicit eight-byte prefix. -/
theorem getD_add_eight (a0 a1 a2 a3 a4 a5 a6 a7 : Nat) (l : List Nat) (m d : Nat) :
    (a0 :: a1 :: a2 :: a3 :: a4 :: a5 :: a6 :: a7 :: l).getD (m + 8) d = l.getD m d := by
  have h : m + 8 = m + 1 + 1 + 1 + 1 + 1 + 1 + 1 + 1 := by omega
  rw [h]
  simp [List.getD_cons_succ]

/-- A frame remainder shorter than one full stride produces no samples. -/
theorem parseSamples_short (l : List Nat) (h : l.length < 8) :
    parseSamples l = ([], []) := by
  rw [parseSamples.eq_def]
  split
  · rename_i b0 b1 b2 b3 b4 b5 b6 b7 rest
    simp at h
    omega
  · rfl

/-- The stride loop of `parse_eeg_packet` in full: both channels have one
sample per complete 8-byte stride, the `k`-th channel-1 sample decodes
bytes `[8k, 8k+4)` and the `k`-th channel-2 sample bytes `[8k+4, 8k+8)`,
each as a signed little-endian 32-bit integer. -/
theorem parseSamples_spec : ∀ l : List Nat,
    (parseSamples l).1.length = l.length / 8 ∧
    (parseSamples l).2.length = l.length / 8 ∧
    ∀ k : Nat, k < l.length / 8 →
      (parseSamples l).1.getD k 0 =
        toSigned32 (leU32 (l.getD (8 * k) 0) (l.getD (8 * k + 1) 0)
          (l.getD (8 * k + 2) 0) (l.getD (8 * k + 3) 0)) ∧
      (parseSamples l).2.getD k 0 =
        toSigned32 (leU32 (l.getD (8 * k + 4) 0) (l.getD (8 * k + 5) 0)
          (l.getD (8 * k + 6) 0) (l.getD (8 * k + 7) 0))
  | [] => by
    refine ⟨?_, ?_, ?_⟩ <;> rw [parseSamples_short _ (by norm_num)]
    · norm_num
    · norm_num
    · intro k hk
      norm_num at hk
  | [_] => by
    refine ⟨?_, ?_, ?_⟩ <;> rw [parseSamples_short _ (by norm_num)]
    · norm_num
    · norm_num
    · intro k hk
      norm_num at hk
  | [_, _] => by
    refine ⟨?_, ?_, ?_⟩ <;> rw [parseSamples_short _ (by norm_num)]
    · norm_num
    · norm_num
    · intro k hk
      norm_num at hk
  | [_, _, _] => by
    refine ⟨?_, ?_, ?_⟩ <;> rw [parseSamples_short _ (by norm_num)]
    · norm_num
    · norm_num
    · intro k hk
      norm_num at hk
  | [_, _, _, _] => by
    refine ⟨?_, ?_, ?_⟩ <;> rw [parseSamples_short _ (by norm_num)]
    · norm_num
    · norm_num
    · intro k hk
      norm_num at hk
  | [_, _, _, _, _] => by
    refine ⟨?_, ?_, ?_⟩ <;> rw [parseSamples_short _ (by norm_num)]
    · norm_num
    · norm_num
    · intro k hk
      norm_num at hk
  | [_, _, _, _, _, _] => by
    refine ⟨?_, ?_, ?_⟩ <;> rw [parseSamples_short _ (by norm_num)]
    · norm_num
    · norm_num
    · intro k hk
      norm_num at hk
  | [_, _, _, _, _, _, _] => by
    refine ⟨?_, ?_, ?_⟩ <;> rw [parseSamples_short _ (by norm_num)]
    · norm_num
    · norm_num
    · intro k hk
      norm_num at hk
  | b0 :: b1 :: b2 :: b3 :: b4 :: b5 :: b6 :: b7 :: rest => by
    obtain ⟨ih1, ih2, ih3⟩ := parseSamples_spec rest
    have hps : parseSamples (b0 :: b1 :: b2 :: b3 :: b4 :: b5 :: b6 :: b7 :: rest) =
        (toSigned32 (leU32 b0 b1 b2 b3) :: (parseSamples rest).1,
         toSigned32 (leU32 b4 b5 b6 b7) :: (parseSamples rest).2) := rfl
    refine ⟨?_, ?_, ?_⟩
    · rw [hps]
      simp only [List.length_cons]
      rw [ih1]
      omega
    · rw [hps]
      simp only [List.length_cons]
      rw [ih2]
      omega
    · intro k hk
      rw [hps]
      cases k with
      | zero => exact ⟨rfl, rfl⟩
      | succ k =>
        have hk2 : k < rest.length / 8 := by
          simp only [List.length_cons] at hk
          omega
        obtain ⟨ihA, ihB⟩ := ih3 k hk2
        simp only [Nat.succ_eq_add_one]
        constructor
        · rw [List.getD_cons_succ,
            (by ring : 8 * (k + 1) + 1 = 8 * k + 1 + 8),
            (by ring : 8 * (k + 1) + 2 = 8 * k + 2 + 8),
            (by ring : 8 * (k + 1) + 3 = 8 * k + 3 + 8),
            (by ring : 8 * (k + 1) = 8 * k + 8),
            getD_add_eight, getD_add_eight, getD_add_eight, getD_add_eight]
          exact ihA
        · rw [List.getD_cons_succ,
            (by ring : 8 * (k + 1) + 4 = 8 * k + 4 + 8),
            (by ring : 8 * (k + 1) + 5 = 8 * k + 5 + 8),
            (by ring : 8 * (k + 1) + 6 = 8 * k + 6 + 8),
            (by ring : 8 * (k + 1) + 7 = 8 * k + 7 + 8),
            getD_add_eight, getD_add_eight, getD_add_eight, getD_add_eight]
          exact ihB

/-- `parse_eeg_packet` on a frame with an explicit four-byte header. -/
theorem parse_eeg_packet_cons (d0 d1 d2 d3 : Nat) (payload : List Nat) :
    parse_eeg_packet (d0 :: d1 :: d2 :: d3 :: payload) =
      some ⟨d2 + 256 * d3, (parseSamples payload).1, (parseSamples payload).2⟩ := by
  unfold parse_eeg_packet
  rw [if_neg (by simp only [List.length_cons]; omega)]

/-- C3: for every frame of length at least 4, `parse_eeg_packet` succeeds;
the packet's index is the little-endian unsigned 16-bit value of bytes 2-3;
both channels have exactly `(frame_length - 4) / 8` samples (a trailing
partial stride is silently dropped); and the `k`-th samples decode frame
bytes `[4+8k, 8+8k)` (channel 1) and `[8+8k, 12+8k)` (channel 2) as signed
little-endian 32-bit integers. -/
theorem parse_eeg_packet_spec (data : List Nat) (h : 4 ≤ data.length) :
    ∃ pkt : EEGPacket, parse_eeg_packet data = some pkt ∧
      pkt.index = data.getD 2 0 + 256 * data.getD 3 0 ∧
      pkt.ch1.length = (data.length - 4) / 8 ∧
      pkt.ch2.length = (data.length - 4) / 8 ∧
      ∀ k : Nat, k < (data.length - 4) / 8 →
        pkt.ch1.getD k 0 =
          toSigned32 (leU32 (data.getD (8 * k + 4) 0) (data.getD (8 * k + 5) 0)
            (data.getD (8 * k + 6) 0) (data.getD (8 * k + 7) 0)) ∧
        pkt.ch2.getD k 0 =
          toSigned32 (leU32 (data.getD (8 * k + 8) 0) (data.getD (8 * k + 9) 0)
            (data.getD (8 * k + 10) 0) (data.getD (8 * k + 11) 0)) := by
  obtain ⟨d0, d1, d2, d3, payload, rfl⟩ :
      ∃ d0 d1 d2 d3 payload, data = d0 :: d1 :: d2 :: d3 :: payload := by
    rcases data with _ | ⟨d0, _ | ⟨d1, _ | ⟨d2, _ | ⟨d3, payload⟩⟩⟩⟩
    · simp at h
    · simp at h
    · simp at h
    · simp at h
    · exact ⟨d0, d1, d2, d3, payload, rfl⟩
  obtain ⟨h1, h2, h3⟩ := parseSamples_spec payload
  refine ⟨_, parse_eeg_packet_cons d0 d1 d2 d3 payload, rfl, ?_, ?_, ?_⟩
  · rw [h1]
    simp only [List.length_cons]
    omega
  · rw [h2]
    simp only [List.length_cons]
    omega
  · intro k hk
    have hk' : k < payload.length / 8 := by
      simp only [List.length_cons] at hk
      omega
    obtain ⟨ihA, ihB⟩ := h3 k hk'
    constructor
    · rw [getD_add_four,
        (by ring : 8 * k + 5 = 8 * k + 1 + 4),
        (by ring : 8 * k + 6 = 8 * k + 2 + 4),
        (by ring : 8 * k + 7 = 8 * k + 3 + 4),
        getD_add_four, getD_add_four, getD_add_four]
      exact ihA
    · rw [(by ring : 8 * k + 8 = 8 * k + 4 + 4),
        (by ring : 8 * k + 9 = 8 * k + 5 + 4),
        (by ring : 8 * k + 10 = 8 * k + 6 + 4),
        (by ring : 8 * k + 11 = 8 * k + 7 + 4),
        getD_add_four, getD_add_four, getD_add_four, getD_add_four]
      exact ihB

/-- Witness for C3 at the 12-byte frame
`[0x04, 0x08, 0x01, 0x00, 0x01, 0x00, 0x00, 0x00, 0x02, 0x00, 0x00, 0x00]`. -/
theorem parse_eeg_packet_spec_witness :
    ∃ pkt : EEGPacket,
      parse_eeg_packet [4, 8, 1, 0, 1, 0, 0, 0, 2, 0, 0, 0] = some pkt ∧
      pkt.index = [4, 8, 1, 0, 1, 0, 0, 0, 2, 0, 0, 0].getD 2 0 +
        256 * [4, 8, 1, 0, 1, 0, 0, 0, 2, 0, 0, 0].getD 3 0 ∧
      pkt.ch1.length = (([4, 8, 1, 0, 1, 0, 0, 0, 2, 0, 0, 0] : List Nat).length - 4) / 8 ∧
      pkt.ch2.length = (([4, 8, 1, 0, 1, 0, 0, 0, 2, 0, 0, 0] : List Nat).length - 4) / 8 ∧
      ∀ k : Nat, k < (([4, 8, 1, 0, 1, 0, 0, 0, 2, 0, 0, 0] : List Nat).length - 4) / 8 →
        pkt.ch1.getD k 0 =
          toSigned32 (leU32 ([4, 8, 1, 0, 1, 0, 0, 0, 2, 0, 0, 0].getD (8 * k + 4) 0)
            ([4, 8, 1, 0, 1, 0, 0, 0, 2, 0, 0, 0].getD (8 * k + 5) 0)
            ([4, 8, 1, 0, 1, 0, 0, 0, 2, 0, 0, 0].getD (8 * k + 6) 0)
            ([4, 8, 1, 0, 1, 0, 0, 0, 2, 0, 0, 0].getD (8 * k + 7) 0)) ∧
        pkt.ch2.getD k 0 =
          toSigned32 (leU32 ([4, 8, 1, 0, 1, 0, 0, 0, 2, 0, 0, 0].getD (8 * k + 8) 0)
            ([4, 8, 1, 0, 1, 0, 0, 0, 2, 0, 0, 0].getD (8 * k + 9) 0)
            ([4, 8, 1, 0, 1, 0, 0, 0, 2, 0, 0, 0].getD (8 * k + 10) 0)
            ([4, 8, 1, 0, 1, 0, 0, 0, 2, 0, 0, 0].getD (8 * k + 11) 0)) :=
  parse_eeg_packet_spec [4, 8, 1, 0, 1, 0, 0, 0, 2, 0, 0, 0] (by decide)

/-- C4: a frame shorter than the format minimum is rejected without any
decoded value: `parse_response` returns with the session untouched below
2 bytes, and `parse_eeg_packet` returns `None` below 4 bytes; neither
reads past the buffer and no exception escapes. -/
theorem short_frame_rejection (s : Session) (data : List Nat) :
    (data.length < 2 → parse_response s data = s) ∧
    (data.length < 4 → parse_eeg_packet data = none) := by
  constructor
  · intro h
    unfold parse_response
    rw [if_pos h]
  · intro h
    unfold parse_eeg_packet
    rw [if_pos h]

/-- Witness for C4 at the 1-byte frame `[0x09]`. -/
theorem short_frame_rejection_witness :
    parse_response initialSession [9] = initialSession ∧
    parse_eeg_packet [9] = none :=
  ⟨(short_frame_rejection initialSession [9]).1 (by decide),
   (short_frame_rejection initialSession [9]).2 (by decide)⟩

/-- C5: `handle_notification` is a pure three-way dispatch on the first
byte: an empty frame is a no-op, a first byte of `0x04` routes the whole
frame to `parse_eeg_packet`, and any other first byte routes the whole
frame to `parse_response`; the frame itself is passed through undecoded. -/
theorem handle_notification_dispatch (s : Session) (data : List Nat) :
    (data = [] → handle_notification s data = (s, none)) ∧
    (∀ b rest, data = b :: rest → b = EEG_PACKET_TYPE →
      handle_notification s data = (s, parse_eeg_packet data)) ∧
    (∀ b rest, data = b :: rest → b ≠ EEG_PACKET_TYPE →
      handle_notification s data = (parse_response s data, none)) := by
  refine ⟨?_, ?_, ?_⟩
  · rintro rfl
    rfl
  · rintro b rest rfl hb
    simp [handle_notification, hb]
  · rintro b rest rfl hb
    simp [handle_notification, hb]

/-- Witness for C5 at the EEG-discriminant frame `[0x04, 0x00, 0x05, 0x00]`. -/
theorem handle_notification_dispatch_witness :
    handle_notification initialSession [4, 0, 5, 0] =
      (initialSession, parse_eeg_packet [4, 0, 5, 0]) :=
  (handle_notification_dispatch initialSession [4, 0, 5, 0]).2.1 4 [0, 5, 0] rfl rfl

/-- C9: `parse_eeg_packet` never looks at byte 1 (the embedded length
field): two frames of equal length, at least 4 bytes, agreeing everywhere
except possibly at offset 1, decode to equal packets. -/
theorem parse_eeg_packet_ignores_length_byte (l1 l2 : List Nat)
    (hlen : l1.length = l2.length) (h4 : 4 ≤ l1.length)
    (hagree : ∀ i : Nat, i ≠ 1 → l1.getD i 0 = l2.getD i 0) :
    parse_eeg_packet l1 = parse_eeg_packet l2 := by
  obtain ⟨a0, a1, a2, a3, r1, rfl⟩ :
      ∃ a0 a1 a2 a3 r1, l1 = a0 :: a1 :: a2 :: a3 :: r1 := by
    rcases l1 with _ | ⟨a0, _ | ⟨a1, _ | ⟨a2, _ | ⟨a3, r1⟩⟩⟩⟩
    · simp at h4
    · simp at h4
    · simp at h4
    · simp at h4
    · exact ⟨a0, a1, a2, a3, r1, rfl⟩
  obtain ⟨b0, b1, b2, b3, r2, rfl⟩ :
      ∃ b0 b1 b2 b3 r2, l2 = b0 :: b1 :: b2 :: b3 :: r2 := by
    rcases l2 with _ | ⟨b0, _ | ⟨b1, _ | ⟨b2, _ | ⟨b3, r2⟩⟩⟩⟩ <;>
      simp only [List.length_cons, List.length_nil] at hlen
    · omega
    · omega
    · omega
    · omega
    · exact ⟨b0, b1, b2, b3, r2, rfl⟩
  have h2 : a2 = b2 := hagree 2 (by decide)
  have h3 : a3 = b3 := hagree 3 (by decide)
  have hr : r1 = r2 := by
    apply List.ext_getElem (by simp only [List.length_cons] at hlen; omega)
    intro i hi1 hi2
    have hg := hagree (i + 4) (by omega)
    rw [getD_add_four, getD_add_four] at hg
    rw [← List.getD_eq_getElem r1 0 hi1, ← List.getD_eq_getElem r2 0 hi2]
    exact hg
  subst h2
  subst h3
  subst hr
  rw [parse_eeg_packet_cons, parse_eeg_packet_cons]

/-- Witness for C9: frames `[4, 0, 5, 0]` and `[4, 200, 5, 0]` differ only
in the length byte and decode identically. -/
theorem parse_eeg_packet_ignores_length_byte_witness :
    parse_eeg_packet [4, 0, 5, 0] = parse_eeg_packet [4, 200, 5, 0] :=
  parse_eeg_packet_ignores_length_byte [4, 0, 5, 0] [4, 200, 5, 0]
    (by decide) (by decide)
    (by
      intro i hi
      match i, hi with
      | 0, _ => rfl
      | 1, hi => exact absurd rfl hi
      | 2, _ => rfl
      | 3, _ => rfl
      | n + 4, _ => rfl)

/-! ## Session state updates -/

/-- `parse_response` on a well-formed `PDU_RESPONSE` frame runs the two
sequential feature-specific updates. -/
theorem parse_response_resp (s : Session) (data : List Nat)
    (h2 : 2 ≤ data.length) (ht : pdu_type_of data = PDU_RESPONSE) :
    parse_response s data = battery_update (serial_update s data) data := by
  unfold parse_response
  rw [if_neg (by omega), if_pos ht]

/-- `battery_update` never touches the serial number. -/
theorem battery_update_serial_number (s : Session) (data : List Nat) :
    (battery_update s data).serial_number = s.serial_number := by
  unfold battery_update
  split
  · rfl
  · rfl

/-- C6: a decoded generic frame with `pdu_type = PDU_RESPONSE`,
`feature_id = BATTERY_FEATURE`, `pdu_id = CMD_GET_BATTERY` and a non-empty
payload sets `battery_level` to the first payload byte — a value in 0-255
when the frame holds bytes — and ignores all further payload bytes. -/
theorem battery_response_sets_level (s : Session) (d0 d1 p0 : Nat) (rest : List Nat)
    (ht : pdu_type_of (d0 :: d1 :: p0 :: rest) = PDU_RESPONSE)
    (hf : feature_id_of (d0 :: d1 :: p0 :: rest) = BATTERY_FEATURE)
    (hp : pdu_id_of (d0 :: d1 :: p0 :: rest) = CMD_GET_BATTERY)
    (hbyte : p0 < 256) :
    (parse_response s (d0 :: d1 :: p0 :: rest)).battery_level = some p0 ∧ p0 ≤ 255 := by
  refine ⟨?_, by omega⟩
  rw [parse_response_resp s _ (by simp only [List.length_cons]; omega) ht]
  unfold battery_update
  rw [if_pos ⟨hf, hp, by simp⟩]
  rfl

/-- Witness for C6: the battery response `[0x07, 0x00, 0x5A]` sets
`battery_level = 90`. -/
theorem battery_response_sets_level_witness :
    (parse_response initialSession [7, 0, 90]).battery_level = some 90 ∧ 90 ≤ 255 :=
  battery_response_sets_level initialSession 7 0 90 []
    (by decide) (by decide) (by decide) (by decide)

/-- C7: a decoded generic frame with `pdu_type = PDU_RESPONSE`,
`feature_id = CORE_FEATURE`, `pdu_id = CMD_GET_SERIAL` always sets
`serial_number` — to the payload decoded as text when the payload is valid
UTF-8, and to the payload's hexadecimal string otherwise; no payload makes
this path fail. -/
theorem serial_response_text_or_hex (s : Session) (d0 d1 : Nat) (payload : List Nat)
    (ht : pdu_type_of (d0 :: d1 :: payload) = PDU_RESPONSE)
    (hf : feature_id_of (d0 :: d1 :: payload) = CORE_FEATURE)
    (hp : pdu_id_of (d0 :: d1 :: payload) = CMD_GET_SERIAL) :
    ∃ txt : String,
      (parse_response s (d0 :: d1 :: payload)).serial_number = some txt ∧
      ((∃ cs : List Char, utf8DecodeChars payload = some cs ∧ txt = String.mk cs) ∨
       (utf8DecodeChars payload = none ∧ txt = toHex payload)) := by
  rw [parse_response_resp s _ (by simp only [List.length_cons]; omega) ht,
    battery_update_serial_number]
  have hser : (serial_update s (d0 :: d1 :: payload)).serial_number =
      some (decodeSerial payload) := by
    unfold serial_update
    rw [if_pos ⟨hf, hp⟩]
    rfl
  rw [hser]
  cases hu : utf8DecodeChars payload with
  | some cs =>
    refine ⟨String.mk cs, ?_, Or.inl ⟨cs, rfl, rfl⟩⟩
    unfold decodeSerial
    rw [hu]
  | none =>
    refine ⟨toHex payload, ?_, Or.inr ⟨rfl, rfl⟩⟩
    unfold decodeSerial
    rw [hu]

/-- Witness for C7 at the serial response `[0x01, 0x01, 0xFF]`, whose
payload `[0xFF]` is invalid UTF-8. -/
theorem serial_response_text_or_hex_witness :
    ∃ txt : String,
      (parse_response initialSession [1, 1, 255]).serial_number = some txt ∧
      ((∃ cs : List Char, utf8DecodeChars [255] = some cs ∧ txt = String.mk cs) ∨
       (utf8DecodeChars [255] = none ∧ txt = toHex [255])) :=
  serial_response_text_or_hex initialSession 1 1 [255]
    (by decide) (by decide) (by decide)

/-- C8: `serial_number` and `battery_level` survive every frame that is
not a `PDU_RESPONSE` with a matching `(feature_id, pdu_id)` pair
(`CORE/GET_SERIAL` or `BATTERY/GET_BATTERY`); in particular every EEG
frame (first byte `0x04`) leaves the session untouched. -/
theorem session_fields_stable (s : Session) (data : List Nat)
    (h : data.headD 0 = EEG_PACKET_TYPE ∨
      ¬(pdu_type_of data = PDU_RESPONSE ∧
        ((feature_id_of data = CORE_FEATURE ∧ pdu_id_of data = CMD_GET_SERIAL) ∨
         (feature_id_of data = BATTERY_FEATURE ∧ pdu_id_of data = CMD_GET_BATTERY)))) :
    (handle_notification s data).1 = s := by
  cases data with
  | nil => rfl
  | cons b rest =>
    by_cases hb : b = EEG_PACKET_TYPE
    · show (if b = EEG_PACKET_TYPE then (s, parse_eeg_packet (b :: rest))
        else (parse_response s (b :: rest), none)).1 = s
      rw [if_pos hb]
    · show (if b = EEG_PACKET_TYPE then (s, parse_eeg_packet (b :: rest))
        else (parse_response s (b :: rest), none)).1 = s
      rw [if_neg hb]
      have hn : ¬(pdu_type_of (b :: rest) = PDU_RESPONSE ∧
          ((feature_id_of (b :: rest) = CORE_FEATURE ∧
            pdu_id_of (b :: rest) = CMD_GET_SERIAL) ∨
           (feature_id_of (b :: rest) = BATTERY_FEATURE ∧
            pdu_id_of (b :: rest) = CMD_GET_BATTERY))) := by
        rcases h with h | h
        · exact absurd h hb
        · exact h
      show parse_response s (b :: rest) = s
      unfold parse_response
      split
      · rfl
      · split
        · rename_i htp
          have hns : ¬(feature_id_of (b :: rest) = CORE_FEATURE ∧
              pdu_id_of (b :: rest) = CMD_GET_SERIAL) :=
            fun hc => hn ⟨htp, Or.inl hc⟩
          have hnb : ¬(feature_id_of (b :: rest) = BATTERY_FEATURE ∧
              pdu_id_of (b :: rest) = CMD_GET_BATTERY) :=
            fun hc => hn ⟨htp, Or.inr hc⟩
          have e1 : battery_update (serial_update s (b :: rest)) (b :: rest) =
              serial_update s (b :: rest) := by
            unfold battery_update
            rw [if_neg (fun hc => hnb ⟨hc.1, hc.2.1⟩)]
          have e2 : serial_update s (b :: rest) = s := by
            unfold serial_update
            rw [if_neg hns]
          rw [e1, e2]
        · rfl

/-- Witness for C8 at the EEG frame `[0x04, 0x00, 0x00, 0x00]`. -/
theorem session_fields_stable_witness :
    (handle_notification initialSession [4, 0, 0, 0]).1 = initialSession :=
  session_fields_stable initialSession [4, 0, 0, 0] (Or.inl (by decide))

/-- C10: a serial response with an empty payload still updates the
session, setting `serial_number` to the empty string — the serial path,
unlike the battery path, has no non-empty-payload guard. -/
theorem serial_empty_payload_sets_empty_string (s : Session) (d0 d1 : Nat)
    (ht : pdu_type_of [d0, d1] = PDU_RESPONSE)
    (hf : feature_id_of [d0, d1] = CORE_FEATURE)
    (hp : pdu_id_of [d0, d1] = CMD_GET_SERIAL) :
    (parse_response s [d0, d1]).serial_number = some "" := by
  rw [parse_response_resp s _ (by simp only [List.length_cons]; omega) ht,
    battery_update_serial_number]
  unfold serial_update
  rw [if_pos ⟨hf, hp⟩]
  rfl

/-- Witness for C10 at the header-only serial response `[0x01, 0x01]`. -/
theorem serial_empty_payload_sets_empty_string_witness :
    (parse_response initialSession [1, 1]).serial_number = some "" :=
  serial_empty_payload_sets_empty_string initialSession 1 1
    (by decide) (by decide) (by decide)

end Neocore
